import Mathlib

/-!
# The `GraphLayout` adapter of `src/ogdfplugin/graphlayout.cpp`

The adapter owns one layout algorithm of the OGDF library, selected by an
enumerated identifier, runs it on a graph-attributes object it refers to, and
keeps a validity flag.  Two Qt signals (`algorithmChanged`, `validChanged`)
and the `qmlInfo` stream are its only outputs.

Modelling conventions.

* The object is a record of its four members; every member function is a
  function from the record to the new record together with the list of the
  effects it performed, in program order (`Event`).
* `emit` is recorded as an event; slots connected to the signals are outside
  this file and are taken not to re-enter the object.
* What the library does inside `m_layout->call(*m_attributes)` is not part of
  this file: the result of one run (`LayoutRun`) is an argument of `call`, so
  every statement is about all behaviours of the library.
* `new ogdf::name()` is taken to succeed (no allocation failure).
-/

namespace ogdf

/-- The layout classes instantiated by `CREATE_MODULE`, one per `case` of the
switch in `GraphLayout::setAlgorithm`. -/
inductive LayoutModule
  | BalloonLayout
  | CircularLayout
  | ComponentSplitterLayout
  | DavidsonHarelLayout
  | DominanceLayout
  | FMMMLayout
  | FPPLayout
  | FastMultipoleEmbedder
  | FastMultipoleMultilevelEmbedder
  | GEMLayout
  | MixedModelLayout
  | ModularMultilevelMixer
  | MultilevelLayout
  | PlanarDrawLayout
  | PlanarStraightLayout
  | PlanarizationGridLayout
  | PlanarizationLayout
  | PreprocessorLayout
  | RadialTreeLayout
  | ScalingLayout
  | SchnyderLayout
  | SpringEmbedderFRExact
  | SpringEmbedderKK
  | StressMinimization
  | SugiyamaLayout
  | TreeLayout
  | TutteLayout
  | VisibilityLayout
  deriving DecidableEq, Repr

/-- The enumeration `ogdf::AlgorithmFailureCode`, as far as the handler in
`GraphLayout::call` names it.  `unlisted raw` is a value of the underlying
integer type that is none of the enumerators named there. -/
inductive AlgorithmFailureCode
  | Unknown
  | IllegalParameter
  | NoFlow
  | «Sort»
  | Label
  | ExternalFace
  | ForbiddenCrossing
  | TimelimitExceeded
  | NoSolutionFound
  | STOP
  | unlisted (raw : Int)
  deriving DecidableEq, Repr

/-- The enumeration `ogdf::PreconditionViolatedCode`, as far as the handler in
`GraphLayout::call` names it.  `unlisted raw` is a value of the underlying
integer type that is none of the enumerators named there. -/
inductive PreconditionViolatedCode
  | Unknown
  | SelfLoop
  | TreeHierarchies
  | AcyclicHierarchies
  | SingleSource
  | UpwardPlanar
  | Tree
  | Forest
  | Orthogonal
  | Planar
  | ClusterPlanar
  | NoCopy
  | Connected
  | Biconnected
  | STOP
  | unlisted (raw : Int)
  deriving DecidableEq, Repr

/-- Integer values of the named enumerators of the two exception-code
enumerations.  They are fixed by the library's headers, which are not part of
this repository, and are therefore a parameter. -/
structure CodeValues where
  algorithmFailure : AlgorithmFailureCode → Int
  preconditionViolated : PreconditionViolatedCode → Int

/-- The cast `static_cast<std::underlying_type<AlgorithmFailureCode>::type>`. -/
def AlgorithmFailureCode.underlying (v : CodeValues) : AlgorithmFailureCode → Int
  | .unlisted raw => raw
  | c => v.algorithmFailure c

/-- The cast `static_cast<std::underlying_type<PreconditionViolatedCode>::type>`. -/
def PreconditionViolatedCode.underlying (v : CodeValues) : PreconditionViolatedCode → Int
  | .unlisted raw => raw
  | c => v.preconditionViolated c

/-- What can leave `LayoutModule::call` by `throw`, by the `catch` clause of
`GraphLayout::call` that receives it. -/
inductive Thrown
  | AlgorithmFailureException (exceptionCode : AlgorithmFailureCode)
  | PreconditionViolatedException (exceptionCode : PreconditionViolatedCode)
  | Exception
  | other
  deriving DecidableEq, Repr

/-- One execution of `LayoutModule::call` on the graph attributes: the
contents of the attributes when it ends, and what it threw, if anything. -/
structure LayoutRun (α : Type) where
  attributes : α
  thrown : Option Thrown

end ogdf

/-- The enumeration `GraphLayout::Algorithm`.  Its declaration is in
`graphlayout.h`; the constructors are the identifiers of the switch in
`setAlgorithm`, and `other raw` is any value of the type that is none of
them. -/
inductive GraphLayout.Algorithm
  | BalloonLayout
  | CircularLayout
  | ComponentSplitterLayout
  | DavidsonHarelLayout
  | DominanceLayout
  | FMMMLayout
  | FPPLayout
  | FastMultipoleEmbedder
  | FastMultipoleMultilevelEmbedder
  | GEMLayout
  | MixedModelLayout
  | ModularMultilevelMixer
  | MultilevelLayout
  | PlanarDrawLayout
  | PlanarStraightLayout
  | PlanarizationGridLayout
  | PlanarizationLayout
  | PreprocessorLayout
  | RadialTreeLayout
  | ScalingLayout
  | SchnyderLayout
  | SpringEmbedderFRExact
  | SpringEmbedderKK
  | StressMinimization
  | SugiyamaLayout
  | TreeLayout
  | TutteLayout
  | VisibilityLayout
  | other (raw : Int)
  deriving DecidableEq, Repr

/-- The effects a member function of `GraphLayout` performs. -/
inductive Event
  | algorithmChanged
  | validChanged
  | layoutCall (layout : ogdf.LayoutModule)
  | qmlInfo (message : String)
  deriving DecidableEq, Repr

/-- The members of a `GraphLayout` object; `m_attributes` stands for the
object the pointer refers to. -/
structure GraphLayout (α : Type) where
  m_attributes : α
  m_layout : ogdf.LayoutModule
  m_algorithm : GraphLayout.Algorithm
  m_valid : Bool
  deriving DecidableEq, Repr

namespace Event

/-- One of the two signals of the class. -/
def isSignal : Event → Bool
  | algorithmChanged => true
  | validChanged => true
  | _ => false

/-- A message written to the `qmlInfo` stream. -/
def isDiagnostic : Event → Bool
  | qmlInfo _ => true
  | _ => false

/-- An execution of `m_layout->call`. -/
def isLayoutCall : Event → Bool
  | layoutCall _ => true
  | _ => false

end Event

/-- The signals emitted, in order. -/
def notifications (trace : List Event) : List Event :=
  trace.filter Event.isSignal

/-- The messages sent to the diagnostic sink, in order. -/
def diagnostics (trace : List Event) : List Event :=
  trace.filter Event.isDiagnostic

/-- The runs of a layout algorithm, in order. -/
def layoutCalls (trace : List Event) : List Event :=
  trace.filter Event.isLayoutCall

namespace GraphLayout

open ogdf

/-- The switch of `setAlgorithm`: `CREATE_MODULE(name)` expands to
`case name: layout = new ogdf::name(); break`.  `none` is the null pointer
`layout` keeps when no `case` matches. -/
def CREATE_MODULE : Algorithm → Option LayoutModule
  | .BalloonLayout => some .BalloonLayout
  | .CircularLayout => some .CircularLayout
  | .ComponentSplitterLayout => some .ComponentSplitterLayout
  | .DavidsonHarelLayout => some .DavidsonHarelLayout
  | .DominanceLayout => some .DominanceLayout
  | .FMMMLayout => some .FMMMLayout
  | .FPPLayout => some .FPPLayout
  | .FastMultipoleEmbedder => some .FastMultipoleEmbedder
  | .FastMultipoleMultilevelEmbedder => some .FastMultipoleMultilevelEmbedder
  | .GEMLayout => some .GEMLayout
  | .MixedModelLayout => some .MixedModelLayout
  | .ModularMultilevelMixer => some .ModularMultilevelMixer
  | .MultilevelLayout => some .MultilevelLayout
  | .PlanarDrawLayout => some .PlanarDrawLayout
  | .PlanarStraightLayout => some .PlanarStraightLayout
  | .PlanarizationGridLayout => some .PlanarizationGridLayout
  | .PlanarizationLayout => some .PlanarizationLayout
  | .PreprocessorLayout => some .PreprocessorLayout
  | .RadialTreeLayout => some .RadialTreeLayout
  | .ScalingLayout => some .ScalingLayout
  | .SchnyderLayout => some .SchnyderLayout
  | .SpringEmbedderFRExact => some .SpringEmbedderFRExact
  | .SpringEmbedderKK => some .SpringEmbedderKK
  | .StressMinimization => some .StressMinimization
  | .SugiyamaLayout => some .SugiyamaLayout
  | .TreeLayout => some .TreeLayout
  | .TutteLayout => some .TutteLayout
  | .VisibilityLayout => some .VisibilityLayout
  | .other _ => none

/-- A selector is recognized when the switch of `setAlgorithm` has a `case`
for it. -/
def recognized (algorithm : Algorithm) : Bool :=
  (CREATE_MODULE algorithm).isSome

variable {α : Type}

/-- The getter `GraphLayout::algorithm`. -/
def algorithm (self : GraphLayout α) : Algorithm :=
  self.m_algorithm

/-- The getter `GraphLayout::valid`. -/
def valid (self : GraphLayout α) : Bool :=
  self.m_valid

/-- The member function `GraphLayout::invalidate`. -/
def invalidate (self : GraphLayout α) : GraphLayout α × List Event :=
  if self.m_valid then
    ({ self with m_valid := false }, [.validChanged])
  else
    (self, [])

/-- The member function `GraphLayout::setAlgorithm`. -/
def setAlgorithm (algorithm : Algorithm) (self : GraphLayout α) :
    GraphLayout α × List Event :=
  if algorithm = self.m_algorithm then
    (self, [])
  else
    match CREATE_MODULE algorithm with
    | some layout =>
      let self1 := { self with m_layout := layout, m_algorithm := algorithm }
      let (self2, emitted) := invalidate self1
      (self2, emitted ++ [.algorithmChanged])
    | none => (self, [])

/-- The text `reason` holds at the end of the `AlgorithmFailureException`
handler of `call`. -/
def algorithmFailureReason (v : CodeValues) (exceptionCode : AlgorithmFailureCode) :
    String :=
  let reason := "of an unknown reason (" ++ toString (exceptionCode.underlying v) ++ ")"
  match exceptionCode with
  | .Unknown => reason
  | .IllegalParameter => "of an illegal parameter"
  | .NoFlow => "min-cost flow solver could not find a legal flow"
  | .«Sort» => "sequence is not sorted"
  | .Label => "labelling failed"
  | .ExternalFace => "external face is not correct"
  | .ForbiddenCrossing => "crossing were forbidden"
  | .TimelimitExceeded => "timelimit exceeded"
  | .NoSolutionFound => "it could not find a solution"
  | .STOP => reason
  | .unlisted _ => reason

/-- The text `reason` holds at the end of the `PreconditionViolatedException`
handler of `call`. -/
def preconditionViolatedReason (v : CodeValues)
    (exceptionCode : PreconditionViolatedCode) : String :=
  let reason := "An unknown reason (" ++ toString (exceptionCode.underlying v) ++ ")"
  match exceptionCode with
  | .Unknown => reason
  | .SelfLoop => "Graph contains a self-loop, which"
  | .TreeHierarchies => "Graph is not a tree, which"
  | .AcyclicHierarchies => "Graph is not acyclic, which"
  | .SingleSource => "Graph has not a single source, which"
  | .UpwardPlanar => "Graph is not upward planar, which"
  | .Tree => "Graph is not a rooted tree, which"
  | .Forest => "Graph is not a rooted forest, which"
  | .Orthogonal => "Layout is not orthogonal, which"
  | .Planar => "Graph is not planar, which"
  | .ClusterPlanar => "Graph is not cluster planar, which"
  | .NoCopy => "Graph is not a copy of the corresponding graph, which"
  | .Connected => "Graph is not connected, which"
  | .Biconnected => "Graph is not twoconnected, which"
  | .STOP => reason
  | .unlisted _ => reason

/-- The `catch` clauses of `call`, in the order of the source: the message
written to `qmlInfo` for what was thrown.  Every clause ends at the closing
brace of `call`, so the handler itself returns. -/
def handler (v : CodeValues) : Thrown → Except Thrown (List Event)
  | .AlgorithmFailureException e =>
    .ok [.qmlInfo ("Layout algorithm failed, because " ++ algorithmFailureReason v e)]
  | .PreconditionViolatedException e =>
    .ok [.qmlInfo (preconditionViolatedReason v e ++ " violates layout preconditions")]
  | .Exception => .ok [.qmlInfo "OGDF exception caught"]
  | .other => .ok [.qmlInfo "Unknown exception caught"]

/-- The member function `GraphLayout::call`.  `run` is what the library does
if `m_layout->call(*m_attributes)` is reached.  The result is `.error e` when
`e` leaves `call` by `throw`, and `.ok` of the new object and the effects
when `call` returns. -/
def call (v : CodeValues) (run : LayoutRun α) (self : GraphLayout α) :
    Except Thrown (GraphLayout α × List Event) :=
  if self.m_valid then
    .ok (self, [])
  else
    let self1 := { self with m_attributes := run.attributes }
    match run.thrown with
    | none => .ok ({ self1 with m_valid := true }, [.layoutCall self.m_layout, .validChanged])
    | some e =>
      match handler v e with
      | .ok written => .ok (self1, .layoutCall self.m_layout :: written)
      | .error escaped => .error escaped

/-- The operations a client can apply to the object. -/
inductive Operation (α : Type)
  | setAlgorithm (algorithm : Algorithm)
  | call (run : LayoutRun α)
  | invalidate

/-- One operation applied to the object: `.error e` when `e` leaves the
member function by `throw`, else the new object and the effects performed. -/
def perform (v : CodeValues) : Operation α → GraphLayout α →
    Except Thrown (GraphLayout α × List Event)
  | .setAlgorithm algorithm, self => .ok (setAlgorithm algorithm self)
  | .call run, self => call v run self
  | .invalidate, self => .ok (invalidate self)

end GraphLayout

set_option linter.dupNamespace false in
/-- The constructor `GraphLayout::GraphLayout`. -/
def GraphLayout.GraphLayout {α : Type} (attributes : α) : GraphLayout α :=
  { m_attributes := attributes
    m_layout := .FMMMLayout
    m_algorithm := .FMMMLayout
    m_valid := false }

/-- Signal `first` is emitted at some point of the trace and signal `second`
at a later point. -/
def emittedBefore (first second : Event) (trace : List Event) : Prop :=
  [first, second].Sublist trace

/-! ## Concrete objects used to instantiate the statements -/

/-- Enumerator values in which both exception-code enumerations count from
zero in the order of the handlers. -/
def sampleValues : ogdf.CodeValues where
  algorithmFailure
    | .Unknown => 0
    | .IllegalParameter => 1
    | .NoFlow => 2
    | .«Sort» => 3
    | .Label => 4
    | .ExternalFace => 5
    | .ForbiddenCrossing => 6
    | .TimelimitExceeded => 7
    | .NoSolutionFound => 8
    | .STOP => 9
    | .unlisted raw => raw
  preconditionViolated
    | .Unknown => 0
    | .SelfLoop => 1
    | .TreeHierarchies => 2
    | .AcyclicHierarchies => 3
    | .SingleSource => 4
    | .UpwardPlanar => 5
    | .Tree => 6
    | .Forest => 7
    | .Orthogonal => 8
    | .Planar => 9
    | .ClusterPlanar => 10
    | .NoCopy => 11
    | .Connected => 12
    | .Biconnected => 13
    | .STOP => 14
    | .unlisted raw => raw

/-- A freshly constructed object; the graph attributes are stood for by a
number. -/
def sampleFresh : GraphLayout Nat :=
  GraphLayout.GraphLayout 0

/-- An object whose layout is valid: FMMM has run on the attributes. -/
def sampleValid : GraphLayout Nat :=
  { m_attributes := 1, m_layout := .FMMMLayout, m_algorithm := .FMMMLayout, m_valid := true }

/-- A run of the library that returns normally. -/
def sampleCompleted : ogdf.LayoutRun Nat :=
  { attributes := 1, thrown := none }

/-- A run of the library that fails because the graph is not connected. -/
def sampleDisconnected : ogdf.LayoutRun Nat :=
  { attributes := 0, thrown := some (.PreconditionViolatedException .Connected) }

/-! ## Histories of operations -/

section Histories

variable {α : Type}

open GraphLayout ogdf

/-- The constructor together with its effects: the member initialisers build
the object and the body of the constructor is empty. -/
def construct (attributes : α) : GraphLayout α × List Event :=
  (GraphLayout.GraphLayout attributes, [])

/-- One operation that has been applied: the object before and after it and
the effects it performed. -/
structure Performed (α : Type) where
  operation : Operation α
  before : GraphLayout α
  after : GraphLayout α
  trace : List Event

/-- Apply the operations in turn.  The second component is the history so
far, the most recent operation first. -/
def execute (v : CodeValues) :
    List (Operation α) → GraphLayout α × List (Performed α) →
      Except Thrown (GraphLayout α × List (Performed α))
  | [], state => .ok state
  | op :: rest, (self, history) =>
    match perform v op self with
    | .ok (after, trace) => execute v rest (after, ⟨op, self, after, trace⟩ :: history)
    | .error e => .error e

/-- The operation was a `call` in which the algorithm that the switch of
`setAlgorithm` constructs for the selector `current` was run and returned
normally. -/
def Performed.completedRunOf (current : Algorithm) (p : Performed α) : Bool :=
  match p.operation, CREATE_MODULE current with
  | .call run, some layout => run.thrown.isNone && decide (Event.layoutCall layout ∈ p.trace)
  | _, _ => false

/-- The operation was an `invalidate()`, or it changed the selector. -/
def Performed.invalidating (p : Performed α) : Bool :=
  match p.operation with
  | .invalidate => true
  | _ => decide (p.after.algorithm ≠ p.before.algorithm)

/-- The condition the specification gives for the validity flag, on a history
with the most recent operation first: there has been a run of the algorithm
identified by `current` that completed normally, and neither a selector change
nor an `invalidate()` has occurred since it. -/
def freshRun (current : Algorithm) : List (Performed α) → Bool
  | [] => false
  | p :: earlier =>
    p.completedRunOf current || (!p.invalidating && freshRun current earlier)

end Histories

/-! ## Sentinel codes and decimal numerals -/

/-- The bookkeeping values `Unknown` and `STOP` of `ogdf::AlgorithmFailureCode`. -/
def ogdf.AlgorithmFailureCode.isSentinel : ogdf.AlgorithmFailureCode → Bool
  | .Unknown => true
  | .STOP => true
  | _ => false

/-- The bookkeeping values `Unknown` and `STOP` of
`ogdf::PreconditionViolatedCode`. -/
def ogdf.PreconditionViolatedCode.isSentinel : ogdf.PreconditionViolatedCode → Bool
  | .Unknown => true
  | .STOP => true
  | _ => false

/-- A run of the library that throws the given exception and leaves the
attributes as the number `0`. -/
def sampleThrows (e : ogdf.Thrown) : ogdf.LayoutRun Nat :=
  { attributes := 0, thrown := some e }

/-! ## Names of classes and selectors -/

/-- The name of the library class, as written after `ogdf::` in the source. -/
def ogdf.LayoutModule.className : ogdf.LayoutModule → String
  | .BalloonLayout => "BalloonLayout"
  | .CircularLayout => "CircularLayout"
  | .ComponentSplitterLayout => "ComponentSplitterLayout"
  | .DavidsonHarelLayout => "DavidsonHarelLayout"
  | .DominanceLayout => "DominanceLayout"
  | .FMMMLayout => "FMMMLayout"
  | .FPPLayout => "FPPLayout"
  | .FastMultipoleEmbedder => "FastMultipoleEmbedder"
  | .FastMultipoleMultilevelEmbedder => "FastMultipoleMultilevelEmbedder"
  | .GEMLayout => "GEMLayout"
  | .MixedModelLayout => "MixedModelLayout"
  | .ModularMultilevelMixer => "ModularMultilevelMixer"
  | .MultilevelLayout => "MultilevelLayout"
  | .PlanarDrawLayout => "PlanarDrawLayout"
  | .PlanarStraightLayout => "PlanarStraightLayout"
  | .PlanarizationGridLayout => "PlanarizationGridLayout"
  | .PlanarizationLayout => "PlanarizationLayout"
  | .PreprocessorLayout => "PreprocessorLayout"
  | .RadialTreeLayout => "RadialTreeLayout"
  | .ScalingLayout => "ScalingLayout"
  | .SchnyderLayout => "SchnyderLayout"
  | .SpringEmbedderFRExact => "SpringEmbedderFRExact"
  | .SpringEmbedderKK => "SpringEmbedderKK"
  | .StressMinimization => "StressMinimization"
  | .SugiyamaLayout => "SugiyamaLayout"
  | .TreeLayout => "TreeLayout"
  | .TutteLayout => "TutteLayout"
  | .VisibilityLayout => "VisibilityLayout"

/-- The identifier of the enumerator of `GraphLayout::Algorithm`, as written in
the source; a value that is none of the enumerators has no identifier. -/
def GraphLayout.Algorithm.enumerator : GraphLayout.Algorithm → Option String
  | .BalloonLayout => some "BalloonLayout"
  | .CircularLayout => some "CircularLayout"
  | .ComponentSplitterLayout => some "ComponentSplitterLayout"
  | .DavidsonHarelLayout => some "DavidsonHarelLayout"
  | .DominanceLayout => some "DominanceLayout"
  | .FMMMLayout => some "FMMMLayout"
  | .FPPLayout => some "FPPLayout"
  | .FastMultipoleEmbedder => some "FastMultipoleEmbedder"
  | .FastMultipoleMultilevelEmbedder => some "FastMultipoleMultilevelEmbedder"
  | .GEMLayout => some "GEMLayout"
  | .MixedModelLayout => some "MixedModelLayout"
  | .ModularMultilevelMixer => some "ModularMultilevelMixer"
  | .MultilevelLayout => some "MultilevelLayout"
  | .PlanarDrawLayout => some "PlanarDrawLayout"
  | .PlanarStraightLayout => some "PlanarStraightLayout"
  | .PlanarizationGridLayout => some "PlanarizationGridLayout"
  | .PlanarizationLayout => some "PlanarizationLayout"
  | .PreprocessorLayout => some "PreprocessorLayout"
  | .RadialTreeLayout => some "RadialTreeLayout"
  | .ScalingLayout => some "ScalingLayout"
  | .SchnyderLayout => some "SchnyderLayout"
  | .SpringEmbedderFRExact => some "SpringEmbedderFRExact"
  | .SpringEmbedderKK => some "SpringEmbedderKK"
  | .StressMinimization => some "StressMinimization"
  | .SugiyamaLayout => some "SugiyamaLayout"
  | .TreeLayout => some "TreeLayout"
  | .TutteLayout => some "TutteLayout"
  | .VisibilityLayout => some "VisibilityLayout"
  | .other _ => none

/-! ## Auxiliary facts -/

section Auxiliary

variable {α : Type}

open GraphLayout ogdf

theorem handler_ok (v : CodeValues) (e : Thrown) :
    ∃ message, handler v e = .ok [.qmlInfo message] := by
  cases e <;> exact ⟨_, rfl⟩

theorem call_of_valid (v : CodeValues) (run : LayoutRun α) (self : GraphLayout α)
    (h : self.m_valid = true) : call v run self = .ok (self, []) := by
  simp [call, h]

theorem call_of_completed (v : CodeValues) (run : LayoutRun α) (self : GraphLayout α)
    (h : self.m_valid = false) (hrun : run.thrown = none) :
    call v run self =
      .ok ({ self with m_attributes := run.attributes, m_valid := true },
        [.layoutCall self.m_layout, .validChanged]) := by
  simp [call, h, hrun]

theorem call_of_thrown (v : CodeValues) (run : LayoutRun α) (self : GraphLayout α)
    (e : Thrown) (h : self.m_valid = false) (hrun : run.thrown = some e) :
    ∃ message, call v run self =
      .ok ({ self with m_attributes := run.attributes },
        [.layoutCall self.m_layout, .qmlInfo message]) := by
  obtain ⟨message, hm⟩ := handler_ok v e
  exact ⟨message, by simp [call, h, hrun, hm]⟩

theorem call_of_handled (v : CodeValues) (run : LayoutRun α) (self : GraphLayout α)
    (e : Thrown) (written : List Event) (h : self.m_valid = false)
    (hrun : run.thrown = some e) (hw : handler v e = .ok written) :
    call v run self =
      .ok ({ self with m_attributes := run.attributes },
        .layoutCall self.m_layout :: written) := by
  simp [call, h, hrun, hw]

theorem setAlgorithm_of_same (self : GraphLayout α) :
    setAlgorithm self.m_algorithm self = (self, []) := by
  simp [setAlgorithm]

theorem setAlgorithm_of_unrecognized (u : Algorithm) (self : GraphLayout α)
    (h : recognized u = false) : setAlgorithm u self = (self, []) := by
  have hnone : CREATE_MODULE u = none := by
    simpa [recognized] using h
  simp only [setAlgorithm, hnone]
  split <;> rfl

theorem setAlgorithm_of_new (a : Algorithm) (self : GraphLayout α)
    (hrec : recognized a = true) (hne : a ≠ self.m_algorithm) :
    ∃ layout, CREATE_MODULE a = some layout ∧
      setAlgorithm a self =
        ({ self with m_layout := layout, m_algorithm := a, m_valid := false },
          (if self.m_valid then [Event.validChanged] else []) ++ [.algorithmChanged]) := by
  obtain ⟨layout, hl⟩ := Option.isSome_iff_exists.mp hrec
  refine ⟨layout, hl, ?_⟩
  cases hv : self.m_valid <;> simp [setAlgorithm, hne, hl, invalidate, hv]

theorem invalidate_eq (self : GraphLayout α) :
    invalidate self =
      ({ self with m_valid := false }, if self.m_valid then [.validChanged] else []) := by
  cases self with
  | mk attributes layout selector flag => cases flag <;> rfl

/-- Every operation returns, in one of six ways. -/
theorem perform_cases (v : CodeValues) (op : Operation α) (self : GraphLayout α) :
    (∃ run, op = .call run ∧ self.m_valid = false ∧ run.thrown = none ∧
        perform v op self =
          .ok ({ self with m_attributes := run.attributes, m_valid := true },
            [.layoutCall self.m_layout, .validChanged])) ∨
      (∃ run e message, op = .call run ∧ self.m_valid = false ∧ run.thrown = some e ∧
        handler v e = .ok [.qmlInfo message] ∧
        perform v op self =
          .ok ({ self with m_attributes := run.attributes },
            [.layoutCall self.m_layout, .qmlInfo message])) ∨
      (∃ run, op = .call run ∧ self.m_valid = true ∧ perform v op self = .ok (self, [])) ∨
      (∃ a, op = .setAlgorithm a ∧ (a = self.m_algorithm ∨ recognized a = false) ∧
        perform v op self = .ok (self, [])) ∨
      (∃ a layout, op = .setAlgorithm a ∧ a ≠ self.m_algorithm ∧ recognized a = true ∧
        CREATE_MODULE a = some layout ∧
        perform v op self =
          .ok ({ self with m_layout := layout, m_algorithm := a, m_valid := false },
            (if self.m_valid then [Event.validChanged] else []) ++ [.algorithmChanged])) ∨
      (op = .invalidate ∧
        perform v op self =
          .ok ({ self with m_valid := false },
            if self.m_valid then [.validChanged] else [])) := by
  cases op with
  | call run =>
    cases hv : self.m_valid
    · cases hrun : run.thrown with
      | none => exact Or.inl ⟨run, rfl, rfl, hrun, call_of_completed v run self hv hrun⟩
      | some e =>
        obtain ⟨message, hm⟩ := handler_ok v e
        refine Or.inr (Or.inl ⟨run, e, message, rfl, rfl, hrun, hm, ?_⟩)
        simp [perform, call, hv, hrun, hm]
    · exact Or.inr (Or.inr (Or.inl ⟨run, rfl, rfl, call_of_valid v run self hv⟩))
  | setAlgorithm a =>
    by_cases hsame : a = self.m_algorithm
    · refine Or.inr (Or.inr (Or.inr (Or.inl ⟨a, rfl, Or.inl hsame, ?_⟩)))
      subst hsame
      simp [perform, setAlgorithm_of_same]
    · cases hrec : recognized a
      · refine Or.inr (Or.inr (Or.inr (Or.inl ⟨a, rfl, Or.inr hrec, ?_⟩)))
        simp [perform, setAlgorithm_of_unrecognized a self hrec]
      · obtain ⟨layout, hl, h⟩ := setAlgorithm_of_new a self hrec hsame
        refine Or.inr (Or.inr (Or.inr (Or.inr (Or.inl ⟨a, layout, rfl, hsame, hrec, hl, ?_⟩))))
        simp [perform, h]
  | invalidate =>
    refine Or.inr (Or.inr (Or.inr (Or.inr (Or.inr ⟨rfl, ?_⟩))))
    simp [perform, invalidate_eq]

theorem perform_ok (v : CodeValues) (op : Operation α) (self : GraphLayout α) :
    ∃ result, perform v op self = .ok result := by
  rcases perform_cases v op self with
    ⟨_, _, _, _, h⟩ | ⟨_, _, _, _, _, _, _, h⟩ | ⟨_, _, _, h⟩ | ⟨_, _, _, h⟩ |
    ⟨_, _, _, _, _, _, h⟩ | ⟨_, h⟩ <;> exact ⟨_, h⟩

/-- A property of the object and its history that every operation preserves
holds after every sequence of operations, and the sequence returns. -/
theorem execute_invariant (v : CodeValues)
    (inv : GraphLayout α × List (Performed α) → Prop)
    (hstep : ∀ (op : Operation α) (self : GraphLayout α) (history : List (Performed α)),
      inv (self, history) → ∀ after trace, perform v op self = .ok (after, trace) →
        inv (after, ⟨op, self, after, trace⟩ :: history)) :
    ∀ (ops : List (Operation α)) (state : GraphLayout α × List (Performed α)),
      inv state → ∃ final, execute v ops state = .ok final ∧ inv final := by
  intro ops
  induction ops with
  | nil => intro state h; exact ⟨state, rfl, h⟩
  | cons op rest ih =>
    intro state h
    obtain ⟨self, history⟩ := state
    obtain ⟨⟨after, trace⟩, hp⟩ := perform_ok v op self
    obtain ⟨final, hf, hinv⟩ :=
      ih (after, ⟨op, self, after, trace⟩ :: history) (hstep op self history h after trace hp)
    refine ⟨final, ?_, hinv⟩
    simp only [execute, hp]
    exact hf

/-- Every operation keeps the owned instance the one the switch constructs
for the selector. -/
theorem perform_keeps_instance (v : CodeValues) (op : Operation α) (self after : GraphLayout α)
    (trace : List Event) (h : CREATE_MODULE self.m_algorithm = some self.m_layout)
    (hp : perform v op self = .ok (after, trace)) :
    CREATE_MODULE after.m_algorithm = some after.m_layout := by
  rcases perform_cases v op self with
    ⟨_, _, _, _, h1⟩ | ⟨_, _, _, _, _, _, _, h1⟩ | ⟨_, _, _, h1⟩ | ⟨_, _, _, h1⟩ |
    ⟨_, _, _, _, _, hl, h1⟩ | ⟨_, h1⟩ <;>
  · rw [h1] at hp
    cases hp
    first | exact h | exact hl

/-- Every operation keeps the flag equal to `freshRun` of the history. -/
theorem perform_keeps_fresh (v : CodeValues) (op : Operation α) (self after : GraphLayout α)
    (history : List (Performed α)) (trace : List Event)
    (h : CREATE_MODULE self.m_algorithm = some self.m_layout)
    (hfresh : self.m_valid = freshRun self.m_algorithm history)
    (hp : perform v op self = .ok (after, trace)) :
    after.m_valid = freshRun after.m_algorithm (⟨op, self, after, trace⟩ :: history) := by
  rcases perform_cases v op self with
    ⟨run, hop, hv, hrun, h1⟩ | ⟨run, e, message, hop, hv, hrun, -, h1⟩ | ⟨run, hop, hv, h1⟩ |
    ⟨a, hop, -, h1⟩ | ⟨a, layout, hop, hne, -, hl, h1⟩ | ⟨hop, h1⟩ <;>
  · rw [h1] at hp
    cases hp
    subst hop
    simp_all [freshRun, Performed.completedRunOf, Performed.invalidating, algorithm]

/-- The recursive condition `freshRun`, spelled out: some entry of the history
is a completed run of the algorithm identified by `current`, and no entry more
recent than it is an `invalidate()` or a selector change. -/
theorem freshRun_iff (current : Algorithm) (history : List (Performed α)) :
    freshRun current history = true ↔
      ∃ recent p earlier, history = recent ++ p :: earlier ∧
        p.completedRunOf current = true ∧ ∀ q ∈ recent, q.invalidating = false := by
  induction history with
  | nil => simp [freshRun]
  | cons q rest ih =>
    constructor
    · intro h
      simp only [freshRun, Bool.or_eq_true, Bool.and_eq_true, Bool.not_eq_true'] at h
      rcases h with h | ⟨hq, hrest⟩
      · exact ⟨[], q, rest, rfl, h, by simp⟩
      · obtain ⟨recent, p, earlier, heq, hp, hall⟩ := ih.mp hrest
        refine ⟨q :: recent, p, earlier, by simp [heq], hp, ?_⟩
        intro r hr
        rcases List.mem_cons.mp hr with hr | hr
        · rw [hr]; exact hq
        · exact hall r hr
    · rintro ⟨recent, p, earlier, heq, hp, hall⟩
      simp only [freshRun, Bool.or_eq_true, Bool.and_eq_true, Bool.not_eq_true']
      cases recent with
      | nil =>
        simp only [List.nil_append, List.cons.injEq] at heq
        rw [heq.1]
        exact Or.inl hp
      | cons r recent =>
        simp only [List.cons_append, List.cons.injEq] at heq
        refine Or.inr ⟨?_, ih.mpr ⟨recent, p, earlier, heq.2, hp, ?_⟩⟩
        · rw [heq.1]
          exact hall r (List.mem_cons_self _ _)
        · intro x hx
          exact hall x (List.mem_cons_of_mem _ hx)

/-! ### Texts -/

theorem append_ne_of_other_start (p x s : String) (h : ¬ p.data <+: s.data) :
    p ++ x ≠ s := by
  intro heq
  apply h
  rw [← heq, String.data_append]
  exact List.prefix_append _ _

theorem append_ne_of_other_end (x q s : String) (h : ¬ q.data <:+ s.data) :
    x ++ q ≠ s := by
  intro heq
  apply h
  rw [← heq, String.data_append]
  exact List.suffix_append _ _

/-- A message of the `AlgorithmFailureException` handler is neither of the two
generic texts. -/
theorem algorithmFailure_text_ne_generic (v : CodeValues) (c : AlgorithmFailureCode) :
    "Layout algorithm failed, because " ++ algorithmFailureReason v c ≠
        "OGDF exception caught" ∧
      "Layout algorithm failed, because " ++ algorithmFailureReason v c ≠
        "Unknown exception caught" :=
  ⟨append_ne_of_other_start _ _ _ (by decide), append_ne_of_other_start _ _ _ (by decide)⟩

/-- A message of the `PreconditionViolatedException` handler is neither of the
two generic texts. -/
theorem preconditionViolated_text_ne_generic (v : CodeValues)
    (d : PreconditionViolatedCode) :
    preconditionViolatedReason v d ++ " violates layout preconditions" ≠
        "OGDF exception caught" ∧
      preconditionViolatedReason v d ++ " violates layout preconditions" ≠
        "Unknown exception caught" :=
  ⟨append_ne_of_other_end _ _ _ (by decide), append_ne_of_other_end _ _ _ (by decide)⟩

/-! ### Names -/

/-- Different library classes have different names. -/
theorem className_injective (m n : LayoutModule) (h : m.className = n.className) : m = n := by
  cases m <;> cases n <;>
    first
    | rfl
    | exact absurd h (by decide)

/-- The switch constructs, for a selector, the class whose name is the
identifier of the selector. -/
theorem enumerator_of_CREATE_MODULE (a : Algorithm) (m : LayoutModule)
    (h : CREATE_MODULE a = some m) : a.enumerator = some m.className := by
  cases a <;> simp only [CREATE_MODULE, Option.some.injEq] at h <;>
    first
    | (subst h; rfl)
    | exact absurd h (by simp)

end Auxiliary

/-! ## The claims -/

section Claims

variable {α : Type}

open GraphLayout ogdf

/-- C1: if the layout is not valid and the run of the active algorithm
completes normally, then `call` returns, `valid()` is true afterwards,
`validChanged` has been emitted exactly once and `algorithmChanged` not at
all, nothing has been written to `qmlInfo`, and `algorithm()` is unchanged. -/
theorem call_completed_sets_valid (v : CodeValues) (run : LayoutRun α)
    (self : GraphLayout α) (hvalid : self.valid = false) (hrun : run.thrown = none) :
    ∃ after trace, call v run self = .ok (after, trace) ∧
      after.valid = true ∧
      trace.count .validChanged = 1 ∧
      trace.count .algorithmChanged = 0 ∧
      diagnostics trace = [] ∧
      after.algorithm = self.algorithm := by
  refine ⟨_, _, call_of_completed v run self hvalid hrun, ?_⟩
  simp [valid, algorithm, diagnostics, Event.isDiagnostic]

theorem call_completed_sets_valid_witness :
    sampleFresh.valid = false ∧ sampleCompleted.thrown = none ∧
      ∃ after trace, call sampleValues sampleCompleted sampleFresh = .ok (after, trace) ∧
        after.valid = true ∧
        trace.count .validChanged = 1 ∧
        trace.count .algorithmChanged = 0 ∧
        diagnostics trace = [] ∧
        after.algorithm = sampleFresh.algorithm :=
  ⟨rfl, rfl, call_completed_sets_valid sampleValues sampleCompleted sampleFresh rfl rfl⟩

/-- C2: if the layout is not valid and the run of the active algorithm throws
anything at all (an algorithm failure or a precondition violation with any
code, another library exception, or anything else), then `call` returns
without letting it through, `valid()` is still false, `algorithm()` is
unchanged, no signal has been emitted and exactly one message has been
written to `qmlInfo`. -/
theorem call_thrown_is_caught (v : CodeValues) (run : LayoutRun α)
    (self : GraphLayout α) (e : Thrown)
    (hvalid : self.valid = false) (hrun : run.thrown = some e) :
    ∃ after trace, call v run self = .ok (after, trace) ∧
      after.valid = false ∧
      after.algorithm = self.algorithm ∧
      notifications trace = [] ∧
      (diagnostics trace).length = 1 := by
  obtain ⟨message, hm⟩ := call_of_thrown v run self e hvalid hrun
  refine ⟨_, _, hm, ?_⟩
  have hv : self.m_valid = false := hvalid
  simp [valid, algorithm, notifications, diagnostics, Event.isSignal,
    Event.isDiagnostic, hv]

theorem call_thrown_is_caught_witness :
    sampleFresh.valid = false ∧
      sampleDisconnected.thrown = some (.PreconditionViolatedException .Connected) ∧
      ∃ after trace,
        call sampleValues sampleDisconnected sampleFresh = .ok (after, trace) ∧
        after.valid = false ∧
        after.algorithm = sampleFresh.algorithm ∧
        notifications trace = [] ∧
        (diagnostics trace).length = 1 :=
  ⟨rfl, rfl, call_thrown_is_caught sampleValues sampleDisconnected sampleFresh _ rfl rfl⟩

/-- C3: if the layout is valid, `call` does nothing: it returns the object as
it was (graph attributes, algorithm instance, selector and flag) and performs
no effect, so the algorithm is not run, no signal is emitted and nothing is
written to `qmlInfo`.  In particular, when the layout is not valid and a
`call` whose run completes normally is followed by a second `call`, the
second one returns the object as the first left it and performs no effect. -/
theorem call_valid_is_noop (v : CodeValues) (run : LayoutRun α) (self : GraphLayout α) :
    (self.valid = true → call v run self = .ok (self, [])) ∧
      (self.valid = false → ∀ first : LayoutRun α, first.thrown = none →
        ∃ mid trace, call v first self = .ok (mid, trace) ∧
          call v run mid = .ok (mid, [])) :=
  ⟨call_of_valid v run self,
    fun hvalid first hfirst =>
      ⟨_, _, call_of_completed v first self hvalid hfirst, call_of_valid v run _ rfl⟩⟩

theorem call_valid_is_noop_witness :
    (sampleValid.valid = true ∧
        call sampleValues sampleCompleted sampleValid = .ok (sampleValid, [])) ∧
      (sampleFresh.valid = false ∧ sampleCompleted.thrown = none ∧
        ∃ mid trace, call sampleValues sampleCompleted sampleFresh = .ok (mid, trace) ∧
          call sampleValues sampleDisconnected mid = .ok (mid, [])) :=
  ⟨⟨rfl, (call_valid_is_noop sampleValues sampleCompleted sampleValid).1 rfl⟩,
    ⟨rfl, rfl,
      (call_valid_is_noop sampleValues sampleDisconnected sampleFresh).2 rfl
        sampleCompleted rfl⟩⟩

/-- C4: for every object and every selector the switch of `setAlgorithm` has
a `case` for, `algorithm()` returns that selector after `setAlgorithm`. -/
theorem setAlgorithm_then_algorithm (a : Algorithm) (self : GraphLayout α)
    (hrec : recognized a = true) :
    (setAlgorithm a self).1.algorithm = a := by
  by_cases hne : a = self.m_algorithm
  · subst hne
    rw [setAlgorithm_of_same]
    rfl
  · obtain ⟨layout, -, h⟩ := setAlgorithm_of_new a self hrec hne
    rw [h]
    rfl

theorem setAlgorithm_then_algorithm_witness :
    recognized .TreeLayout = true ∧
      (setAlgorithm .TreeLayout sampleFresh).1.algorithm = .TreeLayout :=
  ⟨rfl, setAlgorithm_then_algorithm .TreeLayout sampleFresh rfl⟩

/-- C5: if the layout is valid and the selector is recognized and differs
from `algorithm()`, then after `setAlgorithm` `valid()` is false, and
`algorithmChanged` and `validChanged` have each been emitted exactly once. -/
theorem setAlgorithm_new_invalidates (a : Algorithm) (self : GraphLayout α)
    (hvalid : self.valid = true) (hrec : recognized a = true)
    (hne : a ≠ self.algorithm) :
    (setAlgorithm a self).1.valid = false ∧
      (setAlgorithm a self).2.count .algorithmChanged = 1 ∧
      (setAlgorithm a self).2.count .validChanged = 1 := by
  obtain ⟨layout, -, h⟩ := setAlgorithm_of_new a self hrec hne
  have hv : self.m_valid = true := hvalid
  rw [h]
  simp [valid, hv]

theorem setAlgorithm_new_invalidates_witness :
    sampleValid.valid = true ∧ recognized .TreeLayout = true ∧
      Algorithm.TreeLayout ≠ sampleValid.algorithm ∧
      (setAlgorithm .TreeLayout sampleValid).1.valid = false ∧
      (setAlgorithm .TreeLayout sampleValid).2.count .algorithmChanged = 1 ∧
      (setAlgorithm .TreeLayout sampleValid).2.count .validChanged = 1 :=
  ⟨rfl, rfl, by decide,
    setAlgorithm_new_invalidates .TreeLayout sampleValid rfl rfl (by decide)⟩

/-- C6, as stated, fails: on a valid object with selector `FMMMLayout`,
`setAlgorithm(TreeLayout)` emits `validChanged` first and `algorithmChanged`
second, so `algorithmChanged` is not emitted before `validChanged`. -/
theorem setAlgorithm_order_counterexample :
    sampleValid.valid = true ∧ recognized .TreeLayout = true ∧
      Algorithm.TreeLayout ≠ sampleValid.algorithm ∧
      notifications (setAlgorithm .TreeLayout sampleValid).2 =
        [.validChanged, .algorithmChanged] ∧
      ¬ emittedBefore .algorithmChanged .validChanged
          (setAlgorithm .TreeLayout sampleValid).2 := by
  refine ⟨rfl, rfl, by decide, rfl, ?_⟩
  unfold emittedBefore
  decide

/-- C6, amended: if the layout is valid and the selector is recognized and
differs from `algorithm()`, the signals emitted by `setAlgorithm` are, in this
order, `validChanged` and then `algorithmChanged`. -/
theorem setAlgorithm_new_order (a : Algorithm) (self : GraphLayout α)
    (hvalid : self.valid = true) (hrec : recognized a = true)
    (hne : a ≠ self.algorithm) :
    notifications (setAlgorithm a self).2 = [.validChanged, .algorithmChanged] ∧
      emittedBefore .validChanged .algorithmChanged (setAlgorithm a self).2 := by
  obtain ⟨layout, -, h⟩ := setAlgorithm_of_new a self hrec hne
  have hv : self.m_valid = true := hvalid
  rw [h]
  simp [hv, notifications, Event.isSignal, emittedBefore]

theorem setAlgorithm_new_order_witness :
    sampleValid.valid = true ∧ recognized .TreeLayout = true ∧
      Algorithm.TreeLayout ≠ sampleValid.algorithm ∧
      notifications (setAlgorithm .TreeLayout sampleValid).2 =
        [.validChanged, .algorithmChanged] ∧
      emittedBefore .validChanged .algorithmChanged
        (setAlgorithm .TreeLayout sampleValid).2 :=
  ⟨rfl, rfl, by decide,
    setAlgorithm_new_order .TreeLayout sampleValid rfl rfl (by decide)⟩

/-- C7: `setAlgorithm` with the selector that is already active does nothing:
it returns the object as it was (flag, selector and algorithm instance) and
emits no signal.  Hence for every selector, a second `setAlgorithm` with the
same argument returns the object as the first left it and emits nothing. -/
theorem setAlgorithm_current_is_noop (self : GraphLayout α) :
    setAlgorithm self.algorithm self = (self, []) ∧
      ∀ a : Algorithm,
        setAlgorithm a (setAlgorithm a self).1 = ((setAlgorithm a self).1, []) := by
  refine ⟨setAlgorithm_of_same self, fun a => ?_⟩
  by_cases hne : a = self.m_algorithm
  · subst hne
    rw [setAlgorithm_of_same, setAlgorithm_of_same]
  · cases hrec : recognized a
    · rw [setAlgorithm_of_unrecognized a self hrec, setAlgorithm_of_unrecognized a self hrec]
    · obtain ⟨layout, -, h⟩ := setAlgorithm_of_new a self hrec hne
      rw [h]
      exact setAlgorithm_of_same
        { self with m_layout := layout, m_algorithm := a, m_valid := false }

/-- C8: for every object and every selector value the switch of
`setAlgorithm` has no `case` for, `setAlgorithm` returns the object as it was
(selector, flag and algorithm instance) and emits no signal. -/
theorem setAlgorithm_unrecognized_is_noop (u : Algorithm) (self : GraphLayout α)
    (hrec : recognized u = false) :
    setAlgorithm u self = (self, []) :=
  setAlgorithm_of_unrecognized u self hrec

theorem setAlgorithm_unrecognized_is_noop_witness :
    recognized (.other 99) = false ∧
      setAlgorithm (.other 99) sampleValid = (sampleValid, []) :=
  ⟨rfl, setAlgorithm_unrecognized_is_noop (.other 99) sampleValid rfl⟩

/-- C9: after `invalidate`, `valid()` is false and `algorithm()` is unchanged;
`invalidate` emits `validChanged` exactly once and nothing else if `valid()`
was true before, and emits nothing if it was false. -/
theorem invalidate_clears_valid (self : GraphLayout α) :
    (invalidate self).1.valid = false ∧
      (invalidate self).1.algorithm = self.algorithm ∧
      (invalidate self).2 = if self.valid = true then [.validChanged] else [] := by
  cases hv : self.m_valid <;> simp [invalidate, valid, algorithm, hv]

/-- C10: every operation (`setAlgorithm` with any argument, `call` with any
behaviour of the algorithm, `invalidate`) returns, and it emits `validChanged`
exactly once if `valid()` differs before and after and not at all otherwise,
and `algorithmChanged` exactly once if `algorithm()` differs before and after
and not at all otherwise. -/
theorem notifications_follow_changes (v : CodeValues) (op : Operation α)
    (self : GraphLayout α) :
    ∃ after trace, perform v op self = .ok (after, trace) ∧
      trace.count .validChanged = (if after.valid = self.valid then 0 else 1) ∧
      trace.count .algorithmChanged =
        (if after.algorithm = self.algorithm then 0 else 1) := by
  cases op with
  | setAlgorithm a =>
    refine ⟨(setAlgorithm a self).1, (setAlgorithm a self).2, rfl, ?_⟩
    by_cases hne : a = self.m_algorithm
    · subst hne
      simp [setAlgorithm_of_same]
    · cases hrec : recognized a
      · simp [setAlgorithm_of_unrecognized a self hrec]
      · obtain ⟨layout, -, h⟩ := setAlgorithm_of_new a self hrec hne
        rw [h]
        cases hv : self.m_valid <;> simp [valid, algorithm, hv, hne]
  | call run =>
    cases hv : self.m_valid
    · cases hrun : run.thrown with
      | none =>
        refine ⟨_, _, call_of_completed v run self hv hrun, ?_⟩
        simp [valid, algorithm, hv]
      | some e =>
        obtain ⟨message, hm⟩ := call_of_thrown v run self e hv hrun
        refine ⟨_, _, hm, ?_⟩
        simp [valid, algorithm]
    · refine ⟨_, _, call_of_valid v run self hv, ?_⟩
      simp
  | invalidate =>
    refine ⟨(invalidate self).1, (invalidate self).2, rfl, ?_⟩
    cases hv : self.m_valid <;> simp [invalidate, valid, algorithm, hv]

/-- C11: every operation returns, and the flag moves only along the two
transitions of the state machine: `valid()` goes from false to true only if
the operation is a `call` whose run completed normally, and from true to
false only if the operation is `invalidate` or a `setAlgorithm` with a
recognized selector different from the one active before. -/
theorem valid_transitions (v : CodeValues) (op : Operation α) (self : GraphLayout α) :
    ∃ after trace, perform v op self = .ok (after, trace) ∧
      (self.valid = false → after.valid = true →
        ∃ run, op = .call run ∧ run.thrown = none) ∧
      (self.valid = true → after.valid = false →
        op = .invalidate ∨
          ∃ s, op = .setAlgorithm s ∧ recognized s = true ∧ s ≠ self.algorithm) := by
  rcases perform_cases v op self with
    ⟨run, hop, hv, hrun, h1⟩ | ⟨run, e, message, hop, hv, hrun, -, h1⟩ | ⟨run, hop, hv, h1⟩ |
    ⟨a, hop, -, h1⟩ | ⟨a, layout, hop, hne, hrec, hl, h1⟩ | ⟨hop, h1⟩
  · exact ⟨_, _, h1, fun _ _ => ⟨run, hop, hrun⟩, fun h _ => by simp [valid, hv] at h⟩
  · refine ⟨_, _, h1, fun _ h => ?_, fun h _ => ?_⟩
    · simp [valid, hv] at h
    · simp [valid, hv] at h
  · refine ⟨_, _, h1, fun h => ?_, fun _ h => ?_⟩
    · simp [valid, hv] at h
    · simp [valid, hv] at h
  · refine ⟨_, _, h1, fun h h2 => ?_, fun h h2 => ?_⟩
    · rw [h] at h2
      cases h2
    · rw [h] at h2
      cases h2
  · exact ⟨_, _, h1, fun _ h => by simp [valid] at h,
      fun _ _ => Or.inr ⟨a, hop, hrec, hne⟩⟩
  · exact ⟨_, _, h1, fun _ h => by simp [valid] at h, fun _ _ => Or.inl hop⟩

theorem valid_transitions_witness :
    (sampleFresh.valid = false ∧
        ∃ after trace,
          perform sampleValues (.call sampleCompleted) sampleFresh = .ok (after, trace) ∧
          after.valid = true ∧
          ∃ run, Operation.call sampleCompleted = .call run ∧ run.thrown = none) ∧
      (sampleValid.valid = true ∧
        ∃ after trace,
          perform sampleValues (.setAlgorithm .TreeLayout) sampleValid = .ok (after, trace) ∧
          after.valid = false ∧
          ((Operation.setAlgorithm .TreeLayout : Operation Nat) = .invalidate ∨
            ∃ s, (Operation.setAlgorithm .TreeLayout : Operation Nat) = .setAlgorithm s ∧
              recognized s = true ∧ s ≠ sampleValid.algorithm)) := by
  constructor
  · obtain ⟨after, trace, h, hup, -⟩ :=
      valid_transitions sampleValues (.call sampleCompleted) sampleFresh
    have hafter : after.valid = true := by
      have h2 : (Except.ok (sampleValid, [Event.layoutCall .FMMMLayout, .validChanged]) :
          Except Thrown (GraphLayout Nat × List Event)) = .ok (after, trace) := h
      cases h2
      rfl
    exact ⟨rfl, after, trace, h, hafter, hup rfl hafter⟩
  · obtain ⟨after, trace, h, -, hdown⟩ :=
      valid_transitions sampleValues (.setAlgorithm .TreeLayout) sampleValid
    have hafter : after.valid = false := by
      have h2 : (Except.ok (setAlgorithm .TreeLayout sampleValid) :
          Except Thrown (GraphLayout Nat × List Event)) = .ok (after, trace) := h
      cases h2
      rfl
    exact ⟨rfl, after, trace, h, hafter, hdown rfl hafter⟩

/-- C12: after construction and any sequence of `setAlgorithm`, `call` and
`invalidate` operations (the sequence always returns), `valid()` is true
exactly when there has been a run of the algorithm identified by the current
`algorithm()` that completed normally, and no selector change and no
`invalidate()` has occurred since it.  The history lists the operations with
the most recent first. -/
theorem valid_iff_fresh_run (v : CodeValues) (attributes : α) (ops : List (Operation α)) :
    ∃ final history,
      execute v ops (GraphLayout.GraphLayout attributes, []) = .ok (final, history) ∧
      (final.valid = true ↔
        ∃ recent p earlier, history = recent ++ p :: earlier ∧
          p.completedRunOf final.algorithm = true ∧
          ∀ q ∈ recent, q.invalidating = false) := by
  obtain ⟨⟨final, history⟩, hf, -, hfresh⟩ :=
    execute_invariant v
      (fun state => CREATE_MODULE state.1.m_algorithm = some state.1.m_layout ∧
        state.1.m_valid = freshRun state.1.m_algorithm state.2)
      (fun op self history h after trace hp =>
        ⟨perform_keeps_instance v op self after trace h.1 hp,
          perform_keeps_fresh v op self after history trace h.1 h.2 hp⟩)
      ops (GraphLayout.GraphLayout attributes, []) ⟨rfl, rfl⟩
  refine ⟨final, history, hf, ?_⟩
  rw [← freshRun_iff]
  show final.m_valid = true ↔ freshRun final.m_algorithm history = true
  rw [hfresh]

/-- C19: after construction and any sequence of `setAlgorithm`, `call` and
`invalidate` operations (the sequence always returns), the owned instance is
an instance of the library class named by the current `algorithm()`: the
identifier of the selector is the name of the class of the instance, and no
other class has that name.  It is also the one the switch of `setAlgorithm`
constructs for that selector.  A `call` in that state returns and runs nothing
if the layout is valid and otherwise runs exactly that instance, once. -/
theorem instance_matches_selector (v : CodeValues) (attributes : α)
    (ops : List (Operation α)) (run : LayoutRun α) :
    ∃ final history,
      execute v ops (GraphLayout.GraphLayout attributes, []) = .ok (final, history) ∧
      final.algorithm.enumerator = some final.m_layout.className ∧
      (∀ m : LayoutModule, final.algorithm.enumerator = some m.className →
        m = final.m_layout) ∧
      CREATE_MODULE final.algorithm = some final.m_layout ∧
      ∃ after trace, call v run final = .ok (after, trace) ∧
        layoutCalls trace =
          if final.valid = true then [] else [.layoutCall final.m_layout] := by
  obtain ⟨⟨final, history⟩, hf, hinst⟩ :=
    execute_invariant v
      (fun state => CREATE_MODULE state.1.m_algorithm = some state.1.m_layout)
      (fun op self _ h after trace hp => perform_keeps_instance v op self after trace h hp)
      ops (GraphLayout.GraphLayout attributes, []) rfl
  have hname : final.m_algorithm.enumerator = some final.m_layout.className :=
    enumerator_of_CREATE_MODULE _ _ hinst
  have hunique : ∀ m : LayoutModule, final.m_algorithm.enumerator = some m.className →
      m = final.m_layout := by
    intro m hm
    rw [hname] at hm
    exact (className_injective _ _ (Option.some.inj hm)).symm
  refine ⟨final, history, hf, hname, hunique, hinst, ?_⟩
  rcases perform_cases v (.call run) final with
    ⟨_, _, hv, _, h1⟩ | ⟨_, _, _, _, hv, _, _, h1⟩ | ⟨_, _, hv, h1⟩ | ⟨_, hop, _⟩ |
    ⟨_, _, hop, _⟩ | ⟨hop, _⟩
  · exact ⟨_, _, h1, by simp [layoutCalls, Event.isLayoutCall, valid, hv]⟩
  · exact ⟨_, _, h1, by simp [layoutCalls, Event.isLayoutCall, valid, hv]⟩
  · exact ⟨_, _, h1, by simp [layoutCalls, valid, hv]⟩
  · cases hop
  · cases hop
  · cases hop

/-- C13, as stated, fails: on a fresh object, when the run throws an
algorithm failure with code `Unknown`, or a precondition violation with code
`STOP`, `call` writes one message to `qmlInfo`, so the diagnostic sink does
not receive nothing. -/
theorem sentinel_silence_counterexample :
    sampleFresh.valid = false ∧
      (∃ after trace,
        call sampleValues (sampleThrows (.AlgorithmFailureException .Unknown)) sampleFresh =
          .ok (after, trace) ∧
        diagnostics trace =
          [.qmlInfo "Layout algorithm failed, because of an unknown reason (0)"] ∧
        diagnostics trace ≠ []) ∧
      (∃ after trace,
        call sampleValues (sampleThrows (.PreconditionViolatedException .STOP)) sampleFresh =
          .ok (after, trace) ∧
        diagnostics trace =
          [.qmlInfo "An unknown reason (14) violates layout preconditions"] ∧
        diagnostics trace ≠ []) :=
  ⟨rfl, ⟨_, _, rfl, by decide, by decide⟩, ⟨_, _, rfl, by decide, by decide⟩⟩

/-- C13, amended: when the layout is not valid and the run throws an algorithm
failure whose code is `Unknown` or `STOP`, `call` writes exactly one message,
`Layout algorithm failed, because of an unknown reason (n)`; when it throws a
precondition violation whose code is `Unknown` or `STOP`, `call` writes
exactly one message, `An unknown reason (n) violates layout preconditions`.
In both, `n` is the integer value of the code. -/
theorem sentinel_message (v : CodeValues) (run : LayoutRun α) (self : GraphLayout α)
    (hvalid : self.valid = false) :
    (∀ c : AlgorithmFailureCode, c.isSentinel = true →
      run.thrown = some (.AlgorithmFailureException c) →
      ∃ after trace, call v run self = .ok (after, trace) ∧
        diagnostics trace =
          [.qmlInfo ("Layout algorithm failed, because " ++
            ("of an unknown reason (" ++ toString (v.algorithmFailure c) ++ ")"))]) ∧
      (∀ d : PreconditionViolatedCode, d.isSentinel = true →
        run.thrown = some (.PreconditionViolatedException d) →
        ∃ after trace, call v run self = .ok (after, trace) ∧
          diagnostics trace =
            [.qmlInfo ("An unknown reason (" ++ toString (v.preconditionViolated d) ++ ")" ++
              " violates layout preconditions")]) := by
  have hv : self.m_valid = false := hvalid
  constructor
  · intro c hc hrun
    refine ⟨_, _, by simp only [call, hv, hrun, handler]; rfl, ?_⟩
    cases c <;> simp [AlgorithmFailureCode.isSentinel] at hc <;>
      simp [diagnostics, Event.isDiagnostic, algorithmFailureReason,
        AlgorithmFailureCode.underlying]
  · intro d hd hrun
    refine ⟨_, _, by simp only [call, hv, hrun, handler]; rfl, ?_⟩
    cases d <;> simp [PreconditionViolatedCode.isSentinel] at hd <;>
      simp [diagnostics, Event.isDiagnostic, preconditionViolatedReason,
        PreconditionViolatedCode.underlying]

theorem sentinel_message_witness :
    sampleFresh.valid = false ∧
      (AlgorithmFailureCode.STOP.isSentinel = true ∧
        (sampleThrows (.AlgorithmFailureException .STOP)).thrown =
          some (.AlgorithmFailureException .STOP) ∧
        ∃ after trace,
          call sampleValues (sampleThrows (.AlgorithmFailureException .STOP)) sampleFresh =
            .ok (after, trace) ∧
          diagnostics trace =
            [.qmlInfo ("Layout algorithm failed, because " ++
              ("of an unknown reason (" ++
                toString (sampleValues.algorithmFailure .STOP) ++ ")"))]) ∧
      (PreconditionViolatedCode.Unknown.isSentinel = true ∧
        (sampleThrows (.PreconditionViolatedException .Unknown)).thrown =
          some (.PreconditionViolatedException .Unknown) ∧
        ∃ after trace,
          call sampleValues (sampleThrows (.PreconditionViolatedException .Unknown))
              sampleFresh = .ok (after, trace) ∧
          diagnostics trace =
            [.qmlInfo ("An unknown reason (" ++
              toString (sampleValues.preconditionViolated .Unknown) ++ ")" ++
              " violates layout preconditions")]) :=
  ⟨rfl,
    ⟨rfl, rfl,
      (sentinel_message sampleValues (sampleThrows (.AlgorithmFailureException .STOP))
        sampleFresh rfl).1 .STOP rfl rfl⟩,
    ⟨rfl, rfl,
      (sentinel_message sampleValues (sampleThrows (.PreconditionViolatedException .Unknown))
        sampleFresh rfl).2 .Unknown rfl rfl⟩⟩

/-- C15: if the layout is not valid and the run throws a precondition
violation with code `Connected`, then `call` returns, writes to `qmlInfo` the
text `Graph is not connected, which` followed by
` violates layout preconditions`, a message that contains `not connected`,
and `valid()` stays false. -/
theorem not_connected_message (v : CodeValues) (run : LayoutRun α) (self : GraphLayout α)
    (hvalid : self.valid = false)
    (hrun : run.thrown = some (.PreconditionViolatedException .Connected)) :
    ∃ after trace message, call v run self = .ok (after, trace) ∧
      diagnostics trace = [.qmlInfo message] ∧
      message = "Graph is not connected, which" ++ " violates layout preconditions" ∧
      "not connected".data <:+: message.data ∧
      after.valid = false := by
  have hv : self.m_valid = false := hvalid
  refine ⟨{ self with m_attributes := run.attributes },
    [.layoutCall self.m_layout,
      .qmlInfo ("Graph is not connected, which" ++ " violates layout preconditions")],
    _, ?_, rfl, rfl, by decide, hv⟩
  simp only [call, hv, hrun, handler]
  rfl

theorem not_connected_message_witness :
    sampleFresh.valid = false ∧
      sampleDisconnected.thrown = some (.PreconditionViolatedException .Connected) ∧
      ∃ after trace message,
        call sampleValues sampleDisconnected sampleFresh = .ok (after, trace) ∧
        diagnostics trace = [.qmlInfo message] ∧
        message = "Graph is not connected, which" ++ " violates layout preconditions" ∧
        "not connected".data <:+: message.data ∧
        after.valid = false :=
  ⟨rfl, rfl, not_connected_message sampleValues sampleDisconnected sampleFresh rfl rfl⟩

/-- C16: after `setAlgorithm(TreeLayout)` or `setAlgorithm(RadialTreeLayout)`
the selector is the one given; if the layout is then not valid, so that `call`
reaches the run, and the run throws a precondition violation with code `Tree`,
`Forest` or `TreeHierarchies`, then `call` returns, `valid()` is false
afterwards and the one message written is `Graph is not a rooted tree, which`,
`Graph is not a rooted forest, which` or `Graph is not a tree, which`
respectively, each followed by ` violates layout preconditions`. -/
theorem tree_precondition_messages (v : CodeValues) (a : Algorithm)
    (self : GraphLayout α) (run : LayoutRun α)
    (ha : a = .TreeLayout ∨ a = .RadialTreeLayout)
    (hreached : (setAlgorithm a self).1.valid = false) :
    (setAlgorithm a self).1.algorithm = a ∧
      (run.thrown = some (.PreconditionViolatedException .Tree) →
        ∃ after trace, call v run (setAlgorithm a self).1 = .ok (after, trace) ∧
          after.valid = false ∧
          diagnostics trace =
            [.qmlInfo ("Graph is not a rooted tree, which" ++
              " violates layout preconditions")]) ∧
      (run.thrown = some (.PreconditionViolatedException .Forest) →
        ∃ after trace, call v run (setAlgorithm a self).1 = .ok (after, trace) ∧
          after.valid = false ∧
          diagnostics trace =
            [.qmlInfo ("Graph is not a rooted forest, which" ++
              " violates layout preconditions")]) ∧
      (run.thrown = some (.PreconditionViolatedException .TreeHierarchies) →
        ∃ after trace, call v run (setAlgorithm a self).1 = .ok (after, trace) ∧
          after.valid = false ∧
          diagnostics trace =
            [.qmlInfo ("Graph is not a tree, which" ++
              " violates layout preconditions")]) := by
  have hrec : recognized a = true := by
    rcases ha with ha | ha <;> rw [ha] <;> rfl
  have hv : (setAlgorithm a self).1.m_valid = false := hreached
  have hsel : (setAlgorithm a self).1.algorithm = a := by
    by_cases hne : a = self.m_algorithm
    · subst hne
      rw [setAlgorithm_of_same]
      rfl
    · obtain ⟨layout, -, h⟩ := setAlgorithm_of_new a self hrec hne
      rw [h]
      rfl
  refine ⟨hsel, fun hrun => ?_, fun hrun => ?_, fun hrun => ?_⟩ <;>
    exact ⟨_, _, call_of_handled v run _ _ _ hv hrun rfl, hv, rfl⟩

theorem tree_precondition_messages_witness :
    ((Algorithm.TreeLayout = .TreeLayout ∨ Algorithm.TreeLayout = .RadialTreeLayout) ∧
        (setAlgorithm .TreeLayout sampleValid).1.valid = false ∧
        (sampleThrows (.PreconditionViolatedException .Tree)).thrown =
          some (.PreconditionViolatedException .Tree) ∧
        ∃ after trace,
          call sampleValues (sampleThrows (.PreconditionViolatedException .Tree))
              (setAlgorithm .TreeLayout sampleValid).1 = .ok (after, trace) ∧
          after.valid = false ∧
          diagnostics trace =
            [.qmlInfo ("Graph is not a rooted tree, which" ++
              " violates layout preconditions")]) ∧
      ((Algorithm.RadialTreeLayout = .TreeLayout ∨
          Algorithm.RadialTreeLayout = .RadialTreeLayout) ∧
        (setAlgorithm .RadialTreeLayout sampleFresh).1.valid = false ∧
        (sampleThrows (.PreconditionViolatedException .Forest)).thrown =
          some (.PreconditionViolatedException .Forest) ∧
        ∃ after trace,
          call sampleValues (sampleThrows (.PreconditionViolatedException .Forest))
              (setAlgorithm .RadialTreeLayout sampleFresh).1 = .ok (after, trace) ∧
          after.valid = false ∧
          diagnostics trace =
            [.qmlInfo ("Graph is not a rooted forest, which" ++
              " violates layout preconditions")]) :=
  ⟨⟨Or.inl rfl, rfl, rfl,
      (tree_precondition_messages sampleValues .TreeLayout sampleValid
        (sampleThrows (.PreconditionViolatedException .Tree)) (Or.inl rfl) rfl).2.1 rfl⟩,
    ⟨Or.inr rfl, rfl, rfl,
      (tree_precondition_messages sampleValues .RadialTreeLayout sampleFresh
        (sampleThrows (.PreconditionViolatedException .Forest)) (Or.inr rfl) rfl).2.2.1 rfl⟩⟩

/-- C17: a freshly constructed object has `algorithm() == FMMMLayout` and
`valid() == false`, and its construction emits no signal; if the run
completes normally, one `call` on the fresh object returns, runs the FMMM
instance and leaves `valid() == true`. -/
theorem fresh_adapter (v : CodeValues) (attributes : α) (run : LayoutRun α)
    (hrun : run.thrown = none) :
    (construct attributes).1 = GraphLayout.GraphLayout attributes ∧
      (GraphLayout.GraphLayout attributes).algorithm = .FMMMLayout ∧
      (GraphLayout.GraphLayout attributes).valid = false ∧
      notifications (construct attributes).2 = [] ∧
      ∃ after trace, call v run (GraphLayout.GraphLayout attributes) = .ok (after, trace) ∧
        layoutCalls trace = [.layoutCall .FMMMLayout] ∧
        after.valid = true :=
  ⟨rfl, rfl, rfl, rfl, _, _,
    call_of_completed v run (GraphLayout.GraphLayout attributes) rfl hrun, rfl, rfl⟩

theorem fresh_adapter_witness :
    sampleCompleted.thrown = none ∧
      (construct (0 : Nat)).1 = GraphLayout.GraphLayout 0 ∧
      (GraphLayout.GraphLayout (0 : Nat)).algorithm = .FMMMLayout ∧
      (GraphLayout.GraphLayout (0 : Nat)).valid = false ∧
      notifications (construct (0 : Nat)).2 = [] ∧
      ∃ after trace,
        call sampleValues sampleCompleted (GraphLayout.GraphLayout 0) = .ok (after, trace) ∧
        layoutCalls trace = [.layoutCall .FMMMLayout] ∧
        after.valid = true :=
  ⟨rfl, fresh_adapter sampleValues 0 sampleCompleted rfl⟩

/-- C18: when the layout is not valid, `call` reports what the run throws by
its category: an algorithm failure with the text
`Layout algorithm failed, because ` followed by the reason of its code, a
precondition violation with the reason of its code followed by
` violates layout preconditions`, and neither text is ever one of the two
generic ones; any other library exception with the fixed text
`OGDF exception caught`, and anything else with the fixed text
`Unknown exception caught`; the two fixed texts differ. -/
theorem failure_classification (v : CodeValues) (run : LayoutRun α) (self : GraphLayout α)
    (hvalid : self.valid = false) :
    (∀ c, run.thrown = some (.AlgorithmFailureException c) →
      ∃ after trace message, call v run self = .ok (after, trace) ∧
        diagnostics trace = [.qmlInfo message] ∧
        message = "Layout algorithm failed, because " ++ algorithmFailureReason v c ∧
        message ≠ "OGDF exception caught" ∧ message ≠ "Unknown exception caught") ∧
      (∀ d, run.thrown = some (.PreconditionViolatedException d) →
        ∃ after trace message, call v run self = .ok (after, trace) ∧
          diagnostics trace = [.qmlInfo message] ∧
          message = preconditionViolatedReason v d ++ " violates layout preconditions" ∧
          message ≠ "OGDF exception caught" ∧ message ≠ "Unknown exception caught") ∧
      (run.thrown = some .Exception →
        ∃ after trace, call v run self = .ok (after, trace) ∧
          diagnostics trace = [.qmlInfo "OGDF exception caught"]) ∧
      (run.thrown = some .other →
        ∃ after trace, call v run self = .ok (after, trace) ∧
          diagnostics trace = [.qmlInfo "Unknown exception caught"]) ∧
      Event.qmlInfo "OGDF exception caught" ≠ Event.qmlInfo "Unknown exception caught" := by
  have hv : self.m_valid = false := hvalid
  refine ⟨fun c hrun => ?_, fun d hrun => ?_, fun hrun => ?_, fun hrun => ?_, by decide⟩
  · exact ⟨_, _, _, call_of_handled v run self _ _ hv hrun rfl, rfl, rfl,
      (algorithmFailure_text_ne_generic v c).1, (algorithmFailure_text_ne_generic v c).2⟩
  · exact ⟨_, _, _, call_of_handled v run self _ _ hv hrun rfl, rfl, rfl,
      (preconditionViolated_text_ne_generic v d).1,
      (preconditionViolated_text_ne_generic v d).2⟩
  · exact ⟨_, _, call_of_handled v run self _ _ hv hrun rfl, rfl⟩
  · exact ⟨_, _, call_of_handled v run self _ _ hv hrun rfl, rfl⟩

theorem failure_classification_witness :
    sampleFresh.valid = false ∧
      ((sampleThrows (.AlgorithmFailureException .NoFlow)).thrown =
          some (.AlgorithmFailureException .NoFlow) ∧
        ∃ after trace message,
          call sampleValues (sampleThrows (.AlgorithmFailureException .NoFlow)) sampleFresh =
            .ok (after, trace) ∧
          diagnostics trace = [.qmlInfo message] ∧
          message = "Layout algorithm failed, because " ++
            algorithmFailureReason sampleValues .NoFlow ∧
          message ≠ "OGDF exception caught" ∧ message ≠ "Unknown exception caught") ∧
      ((sampleThrows .Exception).thrown = some .Exception ∧
        ∃ after trace,
          call sampleValues (sampleThrows .Exception) sampleFresh = .ok (after, trace) ∧
          diagnostics trace = [.qmlInfo "OGDF exception caught"]) ∧
      ((sampleThrows .other).thrown = some .other ∧
        ∃ after trace,
          call sampleValues (sampleThrows .other) sampleFresh = .ok (after, trace) ∧
          diagnostics trace = [.qmlInfo "Unknown exception caught"]) :=
  ⟨rfl,
    ⟨rfl, (failure_classification sampleValues
      (sampleThrows (.AlgorithmFailureException .NoFlow)) sampleFresh rfl).1 .NoFlow rfl⟩,
    ⟨rfl, (failure_classification sampleValues (sampleThrows .Exception)
      sampleFresh rfl).2.2.1 rfl⟩,
    ⟨rfl, (failure_classification sampleValues (sampleThrows .other)
      sampleFresh rfl).2.2.2.1 rfl⟩⟩

end Claims
